import Mathlib

/-!
Verification of the year-planning, interpolation and result-parsing core of
the `sepal_mgci` repository (`component/scripts/scripts.py`) against its
specification.  Python dictionaries of the shape `{"year": ..., "asset": ...}`
are embedded as structures, mappings as association lists in iteration order,
and fallible code returns `Except String` carrying the raised message.
-/

/-- One available land-cover asset, keyed by its acquisition year
(Python dict `{"year": int, "asset": str}`). -/
structure YearSpec where
  year : Int
  asset : String
deriving DecidableEq, Repr

/-- Modelled from the spec: `param.REPORT_INTERVALS`, the SDG-fixed list of
reporting periods, is read by `get_sub_a_break_points` but its definition is
not part of the provided sources; the spec enumerates the intervals as
2000, 2005, 2010, 2015, 2020. -/
def REPORT_INTERVALS : List Int := [2000, 2005, 2010, 2015, 2020]

/-- Python `min` on a list of ints (`None` on an empty list). -/
def listMin : List Int → Option Int
  | [] => none
  | x :: xs => some (xs.foldl min x)

/-- Python `max` on a list of ints (`None` on an empty list). -/
def listMax : List Int → Option Int
  | [] => none
  | x :: xs => some (xs.foldl max x)

/-- Python `min(specs, key=lambda x: x.get("year"), default=None)`:
first element with the least year. -/
def minByYear : List YearSpec → Option YearSpec
  | [] => none
  | x :: xs => some (xs.foldl (fun acc s => if s.year < acc.year then s else acc) x)

/-- Python `max(specs, key=lambda x: x.get("year"), default=None)`:
first element with the greatest year. -/
def maxByYear : List YearSpec → Option YearSpec
  | [] => none
  | x :: xs => some (xs.foldl (fun acc s => if acc.year < s.year then s else acc) x)

/-- Loop body of `get_sub_a_break_points` (scripts.py lines 510-550): the
break-point entry computed for one candidate reporting year. -/
def breakPointFor (specs : List YearSpec) (report_year : Int) :
    Int × Option (List YearSpec) :=
  if (specs.map (·.year)).contains report_year then
    (report_year, some (specs.filter (fun s => s.year == report_year)))
  else
    match maxByYear (specs.filter (fun s => decide (s.year < report_year))),
          minByYear (specs.filter (fun s => decide (report_year < s.year))) with
    | some before_ry, some after_ry => (report_year, some [before_ry, after_ry])
    | _, _ => (report_year, none)

/-- `get_sub_a_break_points` (scripts.py lines 481-552).  The input mapping is
embedded by its list of values (the code only reads `.values()`); the global
`param.REPORT_INTERVALS` is passed explicitly.  Python's
`if not any(user_years): return {}` is the test that every year is falsy,
i.e. equal to `0` for ints (it also covers the empty input). -/
def get_sub_a_break_points (intervals : List Int) (specs : List YearSpec) :
    List (Int × Option (List YearSpec)) :=
  let user_years := specs.map (·.year)
  if user_years.all (· == 0) then []
  else
    match listMin user_years, listMax user_years with
    | some lo, some hi =>
        (intervals.filter (fun ry => decide (lo ≤ ry ∧ ry ≤ hi))).map
          (breakPointFor specs)
    | _, _ => []

/-- One row of the flat sub-A table `{belt_class, lc_class, sum}` produced by
`parse_result(..., single=True)`; area sums are embedded as rationals. -/
structure SubARow where
  belt_class : Int
  lc_class : Int
  sum : Rat
deriving DecidableEq, Repr

/-- One land-cover class group `{"group": code, "sum": value}` of an
aggregation tree. -/
structure LcGroup where
  group : Int
  sum : Rat
deriving DecidableEq, Repr

/-- One belt group `{"group": code, "groups": [class groups]}` of a single-level
aggregation tree. -/
structure BeltGroup where
  group : Int
  groups : List LcGroup
deriving DecidableEq, Repr

/-- `parse_result` with `single=True` (scripts.py lines 412-420): one output row
per belt per class group, in iteration order. -/
def parse_result_single (result : List BeltGroup) : List SubARow :=
  result.flatMap (fun belt =>
    belt.groups.map (fun lc_class => ⟨belt.group, lc_class.group, lc_class.sum⟩))

/-- `pandas.merge(df1, df2, on=["belt_class", "lc_class"])`: every left row is
paired with the right rows sharing its key, left order first, right order
within. -/
def mergeOnKeys (df1 df2 : List SubARow) : List (SubARow × SubARow) :=
  df1.flatMap (fun r1 =>
    (df2.filter (fun r2 =>
        r1.belt_class == r2.belt_class && r1.lc_class == r2.lc_class)).map
      (fun r2 => (r1, r2)))

/-- Core of `interpolate_sub_a_data` (scripts.py lines 334-351): merge the two
tables on `(belt_class, lc_class)` and evaluate the linear interpolant through
`(year1, sum_x)` and `(year2, sum_y)` at `target_year` (scipy `interp1d`). -/
def interpolateDfs (df1 df2 : List SubARow) (year1 year2 target_year : Int) :
    List SubARow :=
  (mergeOnKeys df1 df2).map (fun p =>
    ⟨p.1.belt_class, p.1.lc_class,
      p.1.sum + (p.2.sum - p.1.sum) *
        (((target_year : Rat) - (year1 : Rat)) / ((year2 : Rat) - (year1 : Rat)))⟩)

/-- Python `needle in hay` on strings: substring containment. -/
def pyIn (needle hay : String) : Bool := decide (needle.toList <:+: hay.toList)

/-- Python `s.split(sep)` for a one-character separator, on the character
list: always at least one part, empty parts kept. -/
def splitOnChar (c : Char) : List Char → List (List Char)
  | [] => [[]]
  | x :: xs =>
      match splitOnChar c xs, decide (x = c) with
      | rest, true => [] :: rest
      | r :: rs, false => (x :: r) :: rs
      | [], false => [[x]]

/-- One value of the `results` mapping handed to `parse_to_year_a`: a
single-year aggregation result carries a `"groups"` entry with the belt tree;
transition (multi-year) results have a different shape, left opaque here
because `parse_to_year_a` never reads into them successfully. -/
inductive ResVal where
  | single (groups : List BeltGroup)
  | multi
deriving DecidableEq, Repr

/-- Python `dict.get` / `dict[k]` on a string-keyed mapping embedded as an
association list. -/
def lookupMap (m : List (String × ResVal)) (k : String) : Option ResVal :=
  (m.find? (fun e => e.1 == k)).map (·.2)

/-- Python `dict[k]` on the int-keyed break-point mapping. -/
def intLookup (m : List (Int × Option (List YearSpec))) (k : Int) :
    Option (Option (List YearSpec)) :=
  (m.find? (fun e => e.1 == k)).map (·.2)

/-- Body of `interpolate_sub_a_data` (scripts.py lines 308-351) with the
recursive calls to `parse_to_year_a` abstracted, so the mutual recursion can be
tied by fuel.  The pandas column-equality guard of line 329 is structurally
true in this embedding (both tables share the `SubARow` shape) and therefore
has no residue. -/
def interpolateWith (parse : Int → Except String (List SubARow))
    (year1 year2 target_year : Int) : Except String (List SubARow) :=
  if ¬ year1 < year2 then .error "year2 has to be higher than year 1"
  else if ¬ (year1 < target_year ∧ target_year < year2) then
    .error "target year has to be in between year1 and year 2"
  else do
    let df1 ← parse year1
    let df2 ← parse year2
    .ok (interpolateDfs df1 df2 year1 year2 target_year)

/-- `parse_to_year_a` (scripts.py lines 276-305).  Labels of `results` are the
mapping keys in iteration order; the `year in label` test is Python substring
containment; failures carry the exception they raise.  `fuel` bounds the
mutual recursion with `interpolate_sub_a_data`. -/
def parseToYearA (fuel : Nat) (results : List (String × ResVal))
    (reporting_years : List (Int × Option (List YearSpec))) (year : Int) :
    Except String (List SubARow) :=
  match fuel with
  | 0 => .error "RecursionError: maximum recursion depth exceeded"
  | fuel + 1 =>
    let str_year := toString year
    let individual_yrs :=
      (results.map (·.1)).filter
        (fun y => (splitOnChar '_' y.toList).length == 1)
    if individual_yrs.any (fun yr => pyIn str_year yr) then
      match lookupMap results str_year with
      | some (.single groups) => .ok (parse_result_single groups)
      | some .multi => .error "KeyError: groups"
      | none => .error ("KeyError: " ++ str_year)
    else if (reporting_years.map (·.1)).contains year then
      match intLookup reporting_years year with
      | some (some (s1 :: s2 :: _)) =>
          if ¬ s1.year < s2.year then .error "year2 has to be higher than year 1"
          else if ¬ (s1.year < year ∧ year < s2.year) then
            .error "target year has to be in between year1 and year 2"
          else do
            let df1 ← parseToYearA fuel results reporting_years s1.year
            let df2 ← parseToYearA fuel results reporting_years s2.year
            .ok (interpolateDfs df1 df2 s1.year s2.year year)
      | some (some _) => .error "IndexError: list index out of range"
      | some none => .error "TypeError: NoneType object is not subscriptable"
      | none => .error "KeyError"
    else .error "AssertionError: You're not suppose to be asking for this year"

/-- `interpolate_sub_a_data` (scripts.py lines 308-351), tied to
`parse_to_year_a` through fuel. -/
def interpolate_sub_a_data (fuel : Nat) (results : List (String × ResVal))
    (reporting_years : List (Int × Option (List YearSpec)))
    (year1 year2 target_year : Int) : Except String (List SubARow) :=
  interpolateWith (parseToYearA fuel results reporting_years) year1 year2 target_year

/-- A year spec as consumed by `get_interpolation_years`, whose annotated input
type is `Dict[str, List[Dict[str, str]]]`: the year is textual there (the
3-element case tests `year[0].get("year") in period` on the period label). -/
structure YearSpecS where
  year : String
  asset : String
deriving DecidableEq, Repr

/-- Loop body of `get_interpolation_years` (scripts.py lines 173-189): the
segments appended to `years_to_calculate` for one `(period, year)` entry of the
breaking points, or the `ValueError` message raised. -/
def segmentsOfGroup (period : String) (year : List YearSpecS) :
    Except String (List (List YearSpecS)) :=
  match year with
  | [a, b, c, d] => .ok [[a, b], [b, c, d]]
  | [a, b, c] =>
      if pyIn a.year period then .ok [[a], [b, c]]
      else if pyIn c.year period then .ok [[a, b], [c]]
      else .error "Invalid reporting period."
  | [a, b] => .ok [[a, b]]
  | _ => .error "Invalid year format"

/-- The whole loop of scripts.py lines 172-189: concatenation of every entry's
segments, failing at the first invalid entry. -/
def collectSegments : List (String × List YearSpecS) →
    Except String (List (List YearSpecS))
  | [] => .ok []
  | (period, year) :: rest => do
      let segs ← segmentsOfGroup period year
      let more ← collectSegments rest
      .ok (segs ++ more)

/-- Generic lexicographic strict comparison of lists from a strict comparison
of elements; Python's `<` on lists and strings. -/
def lexLtWith {a : Type} (lt : a → a → Bool) : List a → List a → Bool
  | [], [] => false
  | [], _ :: _ => true
  | _ :: _, [] => false
  | x :: xs, y :: ys =>
      if lt x y then true else if lt y x then false else lexLtWith lt xs ys

/-- Python `<` on characters (code points). -/
def charLt (a b : Char) : Bool := decide (a < b)

/-- Python `<` on strings: lexicographic over the characters. -/
def strLt (a b : String) : Bool := lexLtWith charLt a.toList b.toList

/-- Total order used to canonically list a frozenset of year dictionaries:
by year, ties by asset. -/
def specLe (a b : YearSpecS) : Prop :=
  strLt a.year b.year = true ∨ (a.year = b.year ∧ strLt b.asset a.asset = false)

instance : DecidableRel specLe := fun a b =>
  inferInstanceAs
    (Decidable (strLt a.year b.year = true ∨ (a.year = b.year ∧ strLt b.asset a.asset = false)))

/-- Sort key relation of scripts.py lines 128 and 196 (the year string):
`a` may stay before `b` iff `b`'s year is not strictly smaller. -/
def yearLe (a b : YearSpecS) : Prop := strLt b.year a.year = false

instance : DecidableRel yearLe := fun a b =>
  inferInstanceAs (Decidable (strLt b.year a.year = false))

/-- Python comparison `<` between two lists of strings (the sort key of
scripts.py line 199): lexicographic, shorter prefix first. -/
def listLtB (as bs : List String) : Bool := lexLtWith strLt as bs

/-- The year strings of a segment, the sort key of scripts.py line 199. -/
def keyList (g : List YearSpecS) : List String := g.map (·.year)

/-- Relation realised by Python `sorted(..., key=lambda x: [y.get("year") for y in x])`:
`g` may stay before `h` iff `h`'s key is not strictly smaller. -/
def groupLe (g h : List YearSpecS) : Prop := listLtB (keyList h) (keyList g) = false

instance : DecidableRel groupLe := fun g h =>
  inferInstanceAs (Decidable (listLtB (keyList h) (keyList g) = false))

/-- Canonical list of the frozenset built from one year group
(`frozenset(frozenset(d.items()) for d in sublist)` together with the
rebuilding of lines 127-128): members deduplicated and listed sorted by year
then asset.  Python's frozenset iteration order is unspecified; sorting by the
full content is one deterministic refinement of line 128's year sort. -/
def canonGroup (g : List YearSpecS) : List YearSpecS :=
  List.insertionSort specLe g.dedup

/-- `remove_duplicated_years` (scripts.py lines 115-131).  Python's
`set(converted_list)` iteration order is unspecified and hash-dependent; it is
modelled by `List.dedup` of the canonicalised groups, a deterministic stand-in
order. -/
def remove_duplicated_years (breakpoints : List (List YearSpecS)) :
    List (List YearSpecS) :=
  (breakpoints.map canonGroup).dedup

/-- `get_interpolation_years` (scripts.py lines 146-200).  Python's `sorted` is
a stable sort and is modelled by the stable `List.insertionSort`. -/
def get_interpolation_years (breaking_points : List (String × List YearSpecS)) :
    Except String (List (List YearSpecS)) :=
  (collectSegments breaking_points).map (fun years_to_calculate =>
    List.insertionSort groupLe
      ((remove_duplicated_years years_to_calculate).map
        (List.insertionSort yearLe)))

/-- One value of the sub-B dashboard mapping: the `"baseline"` key holds a
`{base, report}` pair of year specs, every other key holds a single spec. -/
inductive BEntry where
  | baseline (base report : YearSpec)
  | extra (spec : YearSpec)
deriving DecidableEq, Repr

/-- Python `sub_b_years.get("baseline")`. -/
def bLookup (ys : List (String × BEntry)) (k : String) : Option BEntry :=
  (ys.find? (fun e => e.1 == k)).map (·.2)

/-- Loop of `get_b_years` (scripts.py lines 262-271): iterate the mapping
entries, skipping the `"baseline"` key and appending one triple per other
entry; `none` models the AttributeError raised when `"baseline"` is absent or
not a base/report pair. -/
def get_b_years_go (sub_b_years : List (String × BEntry)) :
    List (String × BEntry) → List (YearSpec × YearSpec × BEntry) →
      Option (List (YearSpec × YearSpec × BEntry))
  | [], acc => some acc
  | e :: rest, acc =>
      if e.1 == "baseline" then get_b_years_go sub_b_years rest acc
      else
        match bLookup sub_b_years "baseline" with
        | some (.baseline base report) =>
            get_b_years_go sub_b_years rest (acc ++ [(base, report, e.2)])
        | _ => none

/-- `get_b_years` (scripts.py lines 233-273). -/
def get_b_years (sub_b_years : List (String × BEntry)) :
    Option (List (YearSpec × YearSpec × BEntry)) :=
  get_b_years_go sub_b_years sub_b_years []

instance {e a : Type} [DecidableEq e] [DecidableEq a] : DecidableEq (Except e a) :=
  fun x y =>
  match x, y with
  | .ok u, .ok v =>
      if h : u = v then isTrue (congrArg Except.ok h)
      else isFalse (fun hh => h (Except.ok.inj hh))
  | .error u, .error v =>
      if h : u = v then isTrue (congrArg Except.error h)
      else isFalse (fun hh => h (Except.error.inj hh))
  | .ok _, .error _ => isFalse (fun hh => Except.noConfusion hh)
  | .error _, .ok _ => isFalse (fun hh => Except.noConfusion hh)

lemma breakPointFor_fst (specs : List YearSpec) (ry : Int) :
    (breakPointFor specs ry).1 = ry := by
  unfold breakPointFor
  split
  · rfl
  · split <;> rfl

lemma foldl_min_spec (xs : List Int) (x : Int) :
    (xs.foldl min x = x ∨ xs.foldl min x ∈ xs) ∧
      xs.foldl min x ≤ x ∧ ∀ z ∈ xs, xs.foldl min x ≤ z := by
  induction xs generalizing x with
  | nil => exact ⟨Or.inl rfl, le_rfl, by simp⟩
  | cons y ys ih =>
    obtain ⟨hmem, hle, hall⟩ := ih (min x y)
    rw [List.foldl_cons]
    refine ⟨?_, le_trans hle (min_le_left x y), ?_⟩
    · rcases hmem with hm | hm
      · rcases min_choice x y with hxy | hxy
        · exact Or.inl (hm.trans hxy)
        · exact Or.inr (by rw [hm, hxy]; exact List.mem_cons_self y ys)
      · exact Or.inr (List.mem_cons_of_mem y hm)
    · intro z hz
      rcases List.mem_cons.mp hz with rfl | hz
      · exact le_trans hle (min_le_right x z)
      · exact hall z hz

lemma foldl_max_spec (xs : List Int) (x : Int) :
    (xs.foldl max x = x ∨ xs.foldl max x ∈ xs) ∧
      x ≤ xs.foldl max x ∧ ∀ z ∈ xs, z ≤ xs.foldl max x := by
  induction xs generalizing x with
  | nil => exact ⟨Or.inl rfl, le_rfl, by simp⟩
  | cons y ys ih =>
    obtain ⟨hmem, hle, hall⟩ := ih (max x y)
    rw [List.foldl_cons]
    refine ⟨?_, le_trans (le_max_left x y) hle, ?_⟩
    · rcases hmem with hm | hm
      · rcases max_choice x y with hxy | hxy
        · exact Or.inl (hm.trans hxy)
        · exact Or.inr (by rw [hm, hxy]; exact List.mem_cons_self y ys)
      · exact Or.inr (List.mem_cons_of_mem y hm)
    · intro z hz
      rcases List.mem_cons.mp hz with rfl | hz
      · exact le_trans (le_max_right x z) hle
      · exact hall z hz

lemma listMin_spec {l : List Int} (h : l ≠ []) :
    ∃ m, listMin l = some m ∧ m ∈ l ∧ ∀ x ∈ l, m ≤ x := by
  match l with
  | [] => exact absurd rfl h
  | x :: xs =>
    obtain ⟨hmem, hle, hall⟩ := foldl_min_spec xs x
    refine ⟨xs.foldl min x, rfl, ?_, ?_⟩
    · rcases hmem with hm | hm
      · rw [hm]; exact List.mem_cons_self x xs
      · exact List.mem_cons_of_mem x hm
    · intro z hz
      rcases List.mem_cons.mp hz with rfl | hz
      · exact hle
      · exact hall z hz

lemma listMax_spec {l : List Int} (h : l ≠ []) :
    ∃ m, listMax l = some m ∧ m ∈ l ∧ ∀ x ∈ l, x ≤ m := by
  match l with
  | [] => exact absurd rfl h
  | x :: xs =>
    obtain ⟨hmem, hle, hall⟩ := foldl_max_spec xs x
    refine ⟨xs.foldl max x, rfl, ?_, ?_⟩
    · rcases hmem with hm | hm
      · rw [hm]; exact List.mem_cons_self x xs
      · exact List.mem_cons_of_mem x hm
    · intro z hz
      rcases List.mem_cons.mp hz with rfl | hz
      · exact hle
      · exact hall z hz

/-- The fold step of `minByYear` keeps the first element with the least year. -/
lemma foldl_minByYear_spec (xs : List YearSpec) (x : YearSpec) :
    (xs.foldl (fun acc s => if s.year < acc.year then s else acc) x = x ∨
        xs.foldl (fun acc s => if s.year < acc.year then s else acc) x ∈ xs) ∧
      (xs.foldl (fun acc s => if s.year < acc.year then s else acc) x).year ≤ x.year ∧
      ∀ z ∈ xs, (xs.foldl (fun acc s => if s.year < acc.year then s else acc) x).year ≤ z.year := by
  induction xs generalizing x with
  | nil => exact ⟨Or.inl rfl, le_rfl, by simp⟩
  | cons y ys ih =>
    obtain ⟨hmem, hle, hall⟩ := ih (if y.year < x.year then y else x)
    rw [List.foldl_cons]
    have hstep_le_x : (if y.year < x.year then y else x).year ≤ x.year := by
      split
      · exact le_of_lt (by assumption)
      · exact le_rfl
    have hstep_le_y : (if y.year < x.year then y else x).year ≤ y.year := by
      split
      · exact le_rfl
      · exact le_of_not_lt (by assumption)
    refine ⟨?_, le_trans hle hstep_le_x, ?_⟩
    · rcases hmem with hm | hm
      · by_cases hxy : y.year < x.year
        · exact Or.inr (by rw [hm, if_pos hxy]; exact List.mem_cons_self y ys)
        · exact Or.inl (by rw [hm, if_neg hxy])
      · exact Or.inr (List.mem_cons_of_mem y hm)
    · intro z hz
      rcases List.mem_cons.mp hz with rfl | hz
      · exact le_trans hle hstep_le_y
      · exact hall z hz

/-- The fold step of `maxByYear` keeps the first element with the greatest year. -/
lemma foldl_maxByYear_spec (xs : List YearSpec) (x : YearSpec) :
    (xs.foldl (fun acc s => if acc.year < s.year then s else acc) x = x ∨
        xs.foldl (fun acc s => if acc.year < s.year then s else acc) x ∈ xs) ∧
      x.year ≤ (xs.foldl (fun acc s => if acc.year < s.year then s else acc) x).year ∧
      ∀ z ∈ xs, z.year ≤ (xs.foldl (fun acc s => if acc.year < s.year then s else acc) x).year := by
  induction xs generalizing x with
  | nil => exact ⟨Or.inl rfl, le_rfl, by simp⟩
  | cons y ys ih =>
    obtain ⟨hmem, hle, hall⟩ := ih (if x.year < y.year then y else x)
    rw [List.foldl_cons]
    have hstep_ge_x : x.year ≤ (if x.year < y.year then y else x).year := by
      split
      · exact le_of_lt (by assumption)
      · exact le_rfl
    have hstep_ge_y : y.year ≤ (if x.year < y.year then y else x).year := by
      split
      · exact le_rfl
      · exact le_of_not_lt (by assumption)
    refine ⟨?_, le_trans hstep_ge_x hle, ?_⟩
    · rcases hmem with hm | hm
      · by_cases hxy : x.year < y.year
        · exact Or.inr (by rw [hm, if_pos hxy]; exact List.mem_cons_self y ys)
        · exact Or.inl (by rw [hm, if_neg hxy])
      · exact Or.inr (List.mem_cons_of_mem y hm)
    · intro z hz
      rcases List.mem_cons.mp hz with rfl | hz
      · exact le_trans hstep_ge_y hle
      · exact hall z hz

lemma minByYear_spec {l : List YearSpec} (h : l ≠ []) :
    ∃ m, minByYear l = some m ∧ m ∈ l ∧ ∀ s ∈ l, m.year ≤ s.year := by
  match l with
  | [] => exact absurd rfl h
  | x :: xs =>
    obtain ⟨hmem, hle, hall⟩ := foldl_minByYear_spec xs x
    refine ⟨_, rfl, ?_, ?_⟩
    · rcases hmem with hm | hm
      · rw [hm]; exact List.mem_cons_self x xs
      · exact List.mem_cons_of_mem x hm
    · intro z hz
      rcases List.mem_cons.mp hz with rfl | hz
      · exact hle
      · exact hall z hz

lemma maxByYear_spec {l : List YearSpec} (h : l ≠ []) :
    ∃ m, maxByYear l = some m ∧ m ∈ l ∧ ∀ s ∈ l, s.year ≤ m.year := by
  match l with
  | [] => exact absurd rfl h
  | x :: xs =>
    obtain ⟨hmem, hle, hall⟩ := foldl_maxByYear_spec xs x
    refine ⟨_, rfl, ?_, ?_⟩
    · rcases hmem with hm | hm
      · rw [hm]; exact List.mem_cons_self x xs
      · exact List.mem_cons_of_mem x hm
    · intro z hz
      rcases List.mem_cons.mp hz with rfl | hz
      · exact hle
      · exact hall z hz

lemma contains_year_iff (specs : List YearSpec) (P : Int) :
    (specs.map (·.year)).contains P = true ↔ ∃ s ∈ specs, s.year = P := by
  simp only [List.contains_eq_any_beq, List.any_eq_true, List.mem_map]
  constructor
  · rintro ⟨y, ⟨s, hs, rfl⟩, hbeq⟩
    exact ⟨s, hs, (beq_iff_eq.mp hbeq).symm⟩
  · rintro ⟨s, hs, hy⟩
    exact ⟨s.year, ⟨s, hs, rfl⟩, beq_iff_eq.mpr hy.symm⟩

lemma breakPointFor_exact (specs : List YearSpec) (P : Int)
    (h : ∃ s ∈ specs, s.year = P) :
    breakPointFor specs P = (P, some (specs.filter (fun s => s.year == P))) := by
  have hc : (specs.map (·.year)).contains P = true := (contains_year_iff specs P).mpr h
  unfold breakPointFor
  rw [hc]
  rfl

lemma filter_lt_ne_nil (specs : List YearSpec) (P : Int)
    (h : ∃ s ∈ specs, s.year < P) :
    specs.filter (fun s => decide (s.year < P)) ≠ [] := by
  obtain ⟨s, hs, hy⟩ := h
  intro hnil
  have := List.filter_eq_nil_iff.mp hnil s hs
  simp [hy] at this

lemma filter_gt_ne_nil (specs : List YearSpec) (P : Int)
    (h : ∃ s ∈ specs, P < s.year) :
    specs.filter (fun s => decide (P < s.year)) ≠ [] := by
  obtain ⟨s, hs, hy⟩ := h
  intro hnil
  have := List.filter_eq_nil_iff.mp hnil s hs
  simp [hy] at this

lemma breakPointFor_interp (specs : List YearSpec) (P : Int)
    (hnot : ¬ ∃ s ∈ specs, s.year = P)
    (hb : ∃ s ∈ specs, s.year < P) (ha : ∃ s ∈ specs, P < s.year) :
    ∃ b a, breakPointFor specs P = (P, some [b, a]) ∧
      b ∈ specs ∧ a ∈ specs ∧ b.year < P ∧ P < a.year ∧
      (∀ s ∈ specs, s.year < P → s.year ≤ b.year) ∧
      (∀ s ∈ specs, P < s.year → a.year ≤ s.year) := by
  have hc : (specs.map (·.year)).contains P = false := by
    rw [← Bool.not_eq_true]
    exact fun hcc => hnot ((contains_year_iff specs P).mp hcc)
  obtain ⟨b, hbeq, hbmem, hbmax⟩ := maxByYear_spec (filter_lt_ne_nil specs P hb)
  obtain ⟨a, haeq, hamem, hamin⟩ := minByYear_spec (filter_gt_ne_nil specs P ha)
  refine ⟨b, a, ?_, ?_, ?_, ?_, ?_, ?_, ?_⟩
  · unfold breakPointFor
    rw [hc, hbeq, haeq]
    rfl
  · exact (List.mem_filter.mp hbmem).1
  · exact (List.mem_filter.mp hamem).1
  · exact of_decide_eq_true (List.mem_filter.mp hbmem).2
  · exact of_decide_eq_true (List.mem_filter.mp hamem).2
  · intro s hs hy
    exact hbmax s (List.mem_filter.mpr ⟨hs, decide_eq_true hy⟩)
  · intro s hs hy
    exact hamin s (List.mem_filter.mpr ⟨hs, decide_eq_true hy⟩)

lemma breakPointFor_unresolved (specs : List YearSpec) (P : Int)
    (hnot : ¬ ∃ s ∈ specs, s.year = P)
    (hmiss : ¬ ((∃ s ∈ specs, s.year < P) ∧ (∃ s ∈ specs, P < s.year))) :
    breakPointFor specs P = (P, none) := by
  have hc : (specs.map (·.year)).contains P = false := by
    rw [← Bool.not_eq_true]
    exact fun hcc => hnot ((contains_year_iff specs P).mp hcc)
  rcases not_and_or.mp hmiss with hnb | hna
  · have hnil : specs.filter (fun s => decide (s.year < P)) = [] := by
      rw [List.filter_eq_nil_iff]
      intro s hs
      simp only [decide_eq_true_eq]
      exact fun hy => hnb ⟨s, hs, hy⟩
    rcases h2 : minByYear (specs.filter (fun s => decide (P < s.year))) with _ | a <;>
      · unfold breakPointFor
        rw [hc, hnil, h2]
        rfl
  · have hnil : specs.filter (fun s => decide (P < s.year)) = [] := by
      rw [List.filter_eq_nil_iff]
      intro s hs
      simp only [decide_eq_true_eq]
      exact fun hy => hna ⟨s, hs, hy⟩
    rcases h1 : maxByYear (specs.filter (fun s => decide (s.year < P))) with _ | b <;>
      · unfold breakPointFor
        rw [hc, hnil, h1]
        rfl

lemma listMinMax_of_all_zero {l : List Int} (hne : l ≠ []) (hz : l.all (· == 0) = true) :
    listMin l = some 0 ∧ listMax l = some 0 := by
  obtain ⟨m, hm, hmem, _⟩ := listMin_spec hne
  obtain ⟨M, hM, hMem, _⟩ := listMax_spec hne
  have hz' := List.all_eq_true.mp hz
  have hm0 : m = 0 := by simpa using hz' m hmem
  have hM0 : M = 0 := by simpa using hz' M hMem
  exact ⟨by rw [hm, hm0], by rw [hM, hM0]⟩

/-- C1: for every non-empty list of available `YearSpec`s, `get_sub_a_break_points`
keys its output exactly by the `REPORT_INTERVALS` reporting periods lying within
`[min available years, max available years]` (periods outside never appear), and
for each listed period `P`: if `P` equals the year of some available spec, the
value is the list of all matching specs; else if years strictly below and strictly
above `P` both exist, the value is the pair nearest-below / nearest-above; else
the value is `none` (Python `None`). -/
theorem get_sub_a_break_points_correct (specs : List YearSpec) (hne : specs ≠ []) :
    ∃ lo hi, listMin (specs.map (·.year)) = some lo ∧
      listMax (specs.map (·.year)) = some hi ∧
      (get_sub_a_break_points REPORT_INTERVALS specs).map Prod.fst
        = REPORT_INTERVALS.filter (fun p => decide (lo ≤ p ∧ p ≤ hi)) ∧
      ∀ P v, (P, v) ∈ get_sub_a_break_points REPORT_INTERVALS specs →
        ((∃ s ∈ specs, s.year = P) → v = some (specs.filter (fun s => s.year == P))) ∧
        ((¬ ∃ s ∈ specs, s.year = P) →
          (((∃ s ∈ specs, s.year < P) ∧ (∃ s ∈ specs, P < s.year)) →
            ∃ b a, v = some [b, a] ∧ b ∈ specs ∧ a ∈ specs ∧
              b.year < P ∧ P < a.year ∧
              (∀ s ∈ specs, s.year < P → s.year ≤ b.year) ∧
              (∀ s ∈ specs, P < s.year → a.year ≤ s.year)) ∧
          (¬ ((∃ s ∈ specs, s.year < P) ∧ (∃ s ∈ specs, P < s.year)) → v = none)) := by
  have hmapne : specs.map (·.year) ≠ [] := by
    intro h
    exact hne (List.map_eq_nil_iff.mp h)
  obtain ⟨lo, hlo, -, -⟩ := listMin_spec hmapne
  obtain ⟨hi, hhi, -, -⟩ := listMax_spec hmapne
  refine ⟨lo, hi, hlo, hhi, ?_, ?_⟩
  all_goals by_cases hz : (specs.map (·.year)).all (· == 0) = true
  case pos =>
    have h0 := listMinMax_of_all_zero hmapne hz
    have hlo0 : lo = 0 := by rw [h0.1] at hlo; exact (Option.some.inj hlo).symm
    have hhi0 : hi = 0 := by rw [h0.2] at hhi; exact (Option.some.inj hhi).symm
    have hempty : get_sub_a_break_points REPORT_INTERVALS specs = [] := by
      unfold get_sub_a_break_points
      rw [if_pos hz]
    rw [hempty, hlo0, hhi0]
    decide
  case neg =>
    have hget : get_sub_a_break_points REPORT_INTERVALS specs
        = (REPORT_INTERVALS.filter (fun ry => decide (lo ≤ ry ∧ ry ≤ hi))).map
            (breakPointFor specs) := by
      unfold get_sub_a_break_points
      rw [if_neg hz, hlo, hhi]
    rw [hget, List.map_map]
    have hid : (Prod.fst ∘ breakPointFor specs) = id :=
      funext fun ry => breakPointFor_fst specs ry
    rw [hid, List.map_id]
  case pos =>
    have hempty : get_sub_a_break_points REPORT_INTERVALS specs = [] := by
      unfold get_sub_a_break_points
      rw [if_pos hz]
    intro P v hmem
    rw [hempty] at hmem
    exact absurd hmem (List.not_mem_nil _)
  case neg =>
    have hget : get_sub_a_break_points REPORT_INTERVALS specs
        = (REPORT_INTERVALS.filter (fun ry => decide (lo ≤ ry ∧ ry ≤ hi))).map
            (breakPointFor specs) := by
      unfold get_sub_a_break_points
      rw [if_neg hz, hlo, hhi]
    intro P v hmem
    rw [hget] at hmem
    obtain ⟨ry, hry, heq⟩ := List.mem_map.mp hmem
    have hfst : ry = P := by rw [← breakPointFor_fst specs ry, heq]
    subst hfst
    constructor
    · intro hex
      rw [breakPointFor_exact specs ry hex] at heq
      simpa using (congrArg Prod.snd heq).symm
    · intro hnot
      constructor
      · rintro ⟨hbelow, habove⟩
        obtain ⟨b, a, hbp, hb1, ha1, hb2, ha2, hb3, ha3⟩ :=
          breakPointFor_interp specs ry hnot hbelow habove
        rw [hbp] at heq
        have hv : v = some [b, a] := by simpa using (congrArg Prod.snd heq).symm
        exact ⟨b, a, hv, hb1, ha1, hb2, ha2, hb3, ha3⟩
      · intro hmiss
        rw [breakPointFor_unresolved specs ry hnot hmiss] at heq
        simpa using (congrArg Prod.snd heq).symm

/-- C1 witness: the spec scenario with available years 2009, 2011 and 2015 keys
the break points exactly by the in-range reporting periods 2010 and 2015. -/
theorem get_sub_a_break_points_correct_witness :
    (get_sub_a_break_points REPORT_INTERVALS
      [⟨2009, "a2009"⟩, ⟨2011, "a2011"⟩, ⟨2015, "a2015"⟩]).map Prod.fst
      = [2010, 2015] := by
  obtain ⟨lo, hi, hlo, hhi, hkeys, -⟩ :=
    get_sub_a_break_points_correct
      [⟨2009, "a2009"⟩, ⟨2011, "a2011"⟩, ⟨2015, "a2015"⟩] (by decide)
  have elo : listMin ([⟨2009, "a2009"⟩, ⟨2011, "a2011"⟩,
      (⟨2015, "a2015"⟩ : YearSpec)].map (·.year)) = some 2009 := by decide
  have ehi : listMax ([⟨2009, "a2009"⟩, ⟨2011, "a2011"⟩,
      (⟨2015, "a2015"⟩ : YearSpec)].map (·.year)) = some 2015 := by decide
  rw [elo] at hlo
  rw [ehi] at hhi
  have hlo' : lo = 2009 := (Option.some.inj hlo).symm
  have hhi' : hi = 2015 := (Option.some.inj hhi).symm
  rw [hkeys, hlo', hhi']
  decide

/-- C2 counterexample: called on an empty available-year mapping, the resolver
returns the empty mapping normally; no error of any kind is raised, contrary to
the claimed `InvalidYearSetError`. -/
theorem get_sub_a_break_points_empty_counterexample :
    get_sub_a_break_points REPORT_INTERVALS [] = [] := rfl

/-- C2 amended: when the set of available years given to the resolver is empty,
`get_sub_a_break_points` returns an empty mapping (for any interval table)
rather than raising an error. -/
theorem get_sub_a_break_points_empty (intervals : List Int) :
    get_sub_a_break_points intervals [] = [] := rfl

/-- C9: for every single-level aggregation tree, `parse_result` with
`single=True` emits rows counted one per (belt, class) pair, and a row is
emitted exactly when some belt group holds a class group with that belt code,
class code and unchanged sum. -/
theorem parse_result_single_correct (result : List BeltGroup) :
    (parse_result_single result).length
        = (result.map (fun b => b.groups.length)).sum ∧
    ∀ row : SubARow, row ∈ parse_result_single result ↔
      ∃ belt ∈ result, ∃ lc ∈ belt.groups,
        row = ⟨belt.group, lc.group, lc.sum⟩ := by
  constructor
  · rw [parse_result_single, List.length_flatMap]
    congr 1
    simp [Function.comp_def]
  · intro row
    simp only [parse_result_single, List.mem_flatMap, List.mem_map]
    constructor
    · rintro ⟨belt, hbelt, lc, hlc, rfl⟩
      exact ⟨belt, hbelt, lc, hlc, rfl⟩
    · rintro ⟨belt, hbelt, lc, hlc, rfl⟩
      exact ⟨belt, hbelt, lc, hlc, rfl⟩

/-- C9 witness: the 2-belt, 2-class synthetic tree parses to exactly 4 rows and
contains the row for belt 1, class 2 with its input sum 12. -/
theorem parse_result_single_correct_witness :
    (parse_result_single
      [⟨1, [⟨1, 11⟩, ⟨2, 12⟩]⟩, ⟨2, [⟨1, 21⟩, ⟨2, 22⟩]⟩]).length = 4 ∧
    (⟨1, 2, 12⟩ : SubARow) ∈ parse_result_single
      [⟨1, [⟨1, 11⟩, ⟨2, 12⟩]⟩, ⟨2, [⟨1, 21⟩, ⟨2, 22⟩]⟩] := by
  have h := parse_result_single_correct
    [⟨1, [⟨1, 11⟩, ⟨2, 12⟩]⟩, ⟨2, [⟨1, 21⟩, ⟨2, 22⟩]⟩]
  refine ⟨by rw [h.1]; decide, ?_⟩
  exact (h.2 ⟨1, 2, 12⟩).mpr
    ⟨⟨1, [⟨1, 11⟩, ⟨2, 12⟩]⟩, by decide, ⟨2, 12⟩, by decide, by decide⟩

lemma filter_key_singleton {df2 : List SubARow}
    (hnd : (df2.map (fun r => (r.belt_class, r.lc_class))).Nodup)
    {r2 : SubARow} (hmem : r2 ∈ df2) (r1 : SubARow)
    (hb : r1.belt_class = r2.belt_class) (hl : r1.lc_class = r2.lc_class) :
    df2.filter (fun r => r1.belt_class == r.belt_class && r1.lc_class == r.lc_class)
      = [r2] := by
  induction df2 with
  | nil => exact absurd hmem (List.not_mem_nil _)
  | cons x xs ih =>
    rw [List.map_cons, List.nodup_cons] at hnd
    rcases List.mem_cons.mp hmem with rfl | hmem'
    · have hpred : (r1.belt_class == r2.belt_class && r1.lc_class == r2.lc_class) = true := by
        simp [hb, hl]
      have htail : xs.filter
          (fun r => r1.belt_class == r.belt_class && r1.lc_class == r.lc_class) = [] := by
        rw [List.filter_eq_nil_iff]
        intro r hr hpr
        simp only [Bool.and_eq_true, beq_iff_eq] at hpr
        exact hnd.1 (List.mem_map.mpr
          ⟨r, hr, by rw [← hpr.1, ← hpr.2, hb, hl]⟩)
      simp [List.filter_cons, hpred, htail]
    · have hpred : (r1.belt_class == x.belt_class && r1.lc_class == x.lc_class) = false := by
        rw [← Bool.not_eq_true]
        intro hpr
        simp only [Bool.and_eq_true, beq_iff_eq] at hpr
        exact hnd.1 (List.mem_map.mpr
          ⟨r2, hmem', by rw [← hpr.1, ← hpr.2, hb, hl]⟩)
      simp only [List.filter_cons, hpred, Bool.false_eq_true, if_false]
      exact ih hnd.2 hmem'

lemma interpolateDfs_keys (df2 : List SubARow) (y1 y2 t : Int)
    (hnd : (df2.map (fun r => (r.belt_class, r.lc_class))).Nodup)
    (df1 : List SubARow) :
    (∀ r1 ∈ df1, ∃ r2 ∈ df2,
        r2.belt_class = r1.belt_class ∧ r2.lc_class = r1.lc_class) →
    (interpolateDfs df1 df2 y1 y2 t).map (fun r => (r.belt_class, r.lc_class))
      = df1.map (fun r => (r.belt_class, r.lc_class)) := by
  induction df1 with
  | nil => intro _; rfl
  | cons r1 rest ih =>
    intro hcov
    obtain ⟨r2, hr2mem, hkb, hkl⟩ := hcov r1 (List.mem_cons_self _ _)
    have hfil := filter_key_singleton hnd hr2mem r1 hkb.symm hkl.symm
    have hrest := ih (fun r hr => hcov r (List.mem_cons_of_mem _ hr))
    simp only [interpolateDfs, mergeOnKeys, List.flatMap_cons, hfil,
      List.map_append, List.map_map, List.map_cons, List.map_nil] at hrest ⊢
    rw [List.cons_append, List.nil_append]
    exact congrArg _ hrest

lemma interpolateDfs_mem {df1 df2 : List SubARow} (y1 y2 t : Int)
    {r1 r2 : SubARow} (h1 : r1 ∈ df1) (h2 : r2 ∈ df2)
    (hb : r1.belt_class = r2.belt_class) (hl : r1.lc_class = r2.lc_class) :
    (⟨r1.belt_class, r1.lc_class,
        r1.sum + (r2.sum - r1.sum) *
          (((t : Rat) - (y1 : Rat)) / ((y2 : Rat) - (y1 : Rat)))⟩ : SubARow)
      ∈ interpolateDfs df1 df2 y1 y2 t := by
  refine List.mem_map.mpr ⟨(r1, r2), ?_, rfl⟩
  refine List.mem_flatMap.mpr ⟨r1, h1, List.mem_map.mpr ⟨r2, ?_, rfl⟩⟩
  exact List.mem_filter.mpr ⟨h2, by simp [hb, hl]⟩

/-- C3: when the recursive parses of `year1` and `year2` return tables whose
`(belt_class, lc_class)` key sets coincide (right keys unrepeated) and
`year1 < target < year2`, `interpolate_sub_a_data` succeeds with a table whose
keys are exactly `df1`'s, and for every matched pair of rows the output
contains the row interpolated linearly:
`v1 + (v2 - v1) * (target - year1) / (year2 - year1)`. -/
theorem interpolate_sub_a_data_correct
    (fuel : Nat) (results : List (String × ResVal))
    (ry : List (Int × Option (List YearSpec)))
    (year1 year2 target_year : Int) (df1 df2 : List SubARow)
    (h1 : parseToYearA fuel results ry year1 = .ok df1)
    (h2 : parseToYearA fuel results ry year2 = .ok df2)
    (hr1 : year1 < target_year) (hr2 : target_year < year2)
    (hnd : (df2.map (fun r => (r.belt_class, r.lc_class))).Nodup)
    (hcov : ∀ r1 ∈ df1, ∃ r2 ∈ df2,
        r2.belt_class = r1.belt_class ∧ r2.lc_class = r1.lc_class)
    (_hcov' : ∀ r2 ∈ df2, ∃ r1 ∈ df1,
        r1.belt_class = r2.belt_class ∧ r1.lc_class = r2.lc_class) :
    interpolate_sub_a_data fuel results ry year1 year2 target_year
        = .ok (interpolateDfs df1 df2 year1 year2 target_year) ∧
    (interpolateDfs df1 df2 year1 year2 target_year).map
        (fun r => (r.belt_class, r.lc_class))
      = df1.map (fun r => (r.belt_class, r.lc_class)) ∧
    ∀ r1 ∈ df1, ∀ r2 ∈ df2,
      r1.belt_class = r2.belt_class → r1.lc_class = r2.lc_class →
      (⟨r1.belt_class, r1.lc_class,
          r1.sum + (r2.sum - r1.sum) *
            (((target_year : Rat) - (year1 : Rat)) /
              ((year2 : Rat) - (year1 : Rat)))⟩ : SubARow)
        ∈ interpolateDfs df1 df2 year1 year2 target_year := by
  have hlt : year1 < year2 := hr1.trans hr2
  refine ⟨?_, interpolateDfs_keys df2 year1 year2 target_year hnd df1 hcov, ?_⟩
  · unfold interpolate_sub_a_data interpolateWith
    rw [if_neg (not_not_intro hlt), if_neg (not_not_intro ⟨hr1, hr2⟩), h1, h2]
    rfl
  · intro r1 hr1' r2 hr2' hb hl
    exact interpolateDfs_mem year1 year2 target_year hr1' hr2' hb hl

/-- C3 witness: the spec scenario — sums 10 at 2009 and 20 at 2011 for the one
key (1,1) interpolate to 15 at 2010. -/
theorem interpolate_sub_a_data_correct_witness :
    interpolate_sub_a_data 1
        [("2009", .single [⟨1, [⟨1, 10⟩]⟩]), ("2011", .single [⟨1, [⟨1, 20⟩]⟩])]
        [] 2009 2011 2010
      = .ok [⟨1, 1, 15⟩] := by
  obtain ⟨he, -, -⟩ := interpolate_sub_a_data_correct 1
    [("2009", .single [⟨1, [⟨1, 10⟩]⟩]), ("2011", .single [⟨1, [⟨1, 20⟩]⟩])]
    [] 2009 2011 2010 [⟨1, 1, 10⟩] [⟨1, 1, 20⟩]
    (by decide) (by decide) (by decide) (by decide) (by decide)
    (by decide) (by decide)
  rw [he]
  simp [interpolateDfs, mergeOnKeys]
  norm_num

lemma collectSegments_error_of_mem (bps : List (String × List YearSpecS))
    (period : String) (g : List YearSpecS) (hmem : (period, g) ∈ bps)
    (herr : ∃ msg, segmentsOfGroup period g = .error msg) :
    ∃ msg, collectSegments bps = .error msg := by
  induction bps with
  | nil => exact absurd hmem (List.not_mem_nil _)
  | cons e rest ih =>
    obtain ⟨p, yr⟩ := e
    rcases List.mem_cons.mp hmem with he | hmem'
    · obtain ⟨msg, hm⟩ := herr
      rw [Prod.mk.injEq] at he
      refine ⟨msg, ?_⟩
      unfold collectSegments
      rw [← he.1, ← he.2, hm]
      rfl
    · rcases hs : segmentsOfGroup p yr with msg' | segs
      · refine ⟨msg', ?_⟩
        unfold collectSegments
        rw [hs]
        rfl
      · obtain ⟨m, hm⟩ := ih hmem'
        refine ⟨m, ?_⟩
        unfold collectSegments
        rw [hs, hm]
        rfl

lemma collectSegments_ok_mem (bps : List (String × List YearSpecS))
    (segs : List (List YearSpecS)) (hok : collectSegments bps = .ok segs) :
    ∀ p g, (p, g) ∈ bps → ∃ s, segmentsOfGroup p g = .ok s := by
  induction bps generalizing segs with
  | nil => intro p g hmem; exact absurd hmem (List.not_mem_nil _)
  | cons e rest ih =>
    obtain ⟨p0, yr0⟩ := e
    intro p g hmem
    rcases hs : segmentsOfGroup p0 yr0 with msg | s0
    · rw [collectSegments, hs] at hok
      exact absurd hok (by intro h; exact Except.noConfusion h)
    · rcases hr : collectSegments rest with msg | more
      · rw [collectSegments, hs, hr] at hok
        exact absurd hok (by intro h; exact Except.noConfusion h)
      · rcases List.mem_cons.mp hmem with he | hmem'
        · rw [Prod.mk.injEq] at he
          exact ⟨s0, by rw [he.1, he.2]; exact hs⟩
        · exact ih more hr p g hmem'

/-- Per-entry segments with errors flushed to `[]`, used to describe the
successful runs of `collectSegments`. -/
def segsOf (e : String × List YearSpecS) : List (List YearSpecS) :=
  match segmentsOfGroup e.1 e.2 with
  | .ok s => s
  | .error _ => []

lemma collectSegments_ok_flatMap (bps : List (String × List YearSpecS))
    (segs : List (List YearSpecS)) (hok : collectSegments bps = .ok segs) :
    segs = bps.flatMap segsOf := by
  induction bps generalizing segs with
  | nil =>
    rw [collectSegments] at hok
    cases hok
    rfl
  | cons e rest ih =>
    obtain ⟨p0, yr0⟩ := e
    rcases hs : segmentsOfGroup p0 yr0 with msg | s0
    · rw [collectSegments, hs] at hok
      exact absurd hok (by intro h; exact Except.noConfusion h)
    · rcases hr : collectSegments rest with msg | more
      · rw [collectSegments, hs, hr] at hok
        exact absurd hok (by intro h; exact Except.noConfusion h)
      · rw [collectSegments, hs, hr] at hok
        have h' : (Except.ok (s0 ++ more) : Except String (List (List YearSpecS)))
            = .ok segs := hok
        have : s0 ++ more = segs := Except.ok.inj h'
        rw [← this, List.flatMap_cons, ih more hr]
        have hseg : segsOf (p0, yr0) = s0 := by
          unfold segsOf
          rw [hs]
        rw [hseg]

/-- C4: a 3-element breakpoint group is split according to which end of the
group textually matches the period label (first match wins): first-element
match gives the singleton first element then the pair of the rest; otherwise a
last-element match gives the pair of the first two then the singleton last;
otherwise the extraction fails ("Invalid reporting period."), and a breakpoints
mapping containing such a group makes `get_interpolation_years` fail. -/
theorem three_element_break_point_cases :
    (∀ (period : String) (a b c : YearSpecS),
      pyIn a.year period = true →
        segmentsOfGroup period [a, b, c] = .ok [[a], [b, c]]) ∧
    (∀ (period : String) (a b c : YearSpecS),
      pyIn a.year period = false → pyIn c.year period = true →
        segmentsOfGroup period [a, b, c] = .ok [[a, b], [c]]) ∧
    (∀ (period : String) (a b c : YearSpecS),
      pyIn a.year period = false → pyIn c.year period = false →
        segmentsOfGroup period [a, b, c] = .error "Invalid reporting period.") ∧
    ∀ (bps : List (String × List YearSpecS)) (period : String) (a b c : YearSpecS),
      (period, [a, b, c]) ∈ bps →
      pyIn a.year period = false → pyIn c.year period = false →
      ∃ msg, get_interpolation_years bps = .error msg := by
  refine ⟨?_, ?_, ?_, ?_⟩
  · intro period a b c h
    simp [segmentsOfGroup, h]
  · intro period a b c h1 h2
    simp [segmentsOfGroup, h1, h2]
  · intro period a b c h1 h2
    simp [segmentsOfGroup, h1, h2]
  · intro bps period a b c hmem h1 h2
    obtain ⟨msg, hm⟩ := collectSegments_error_of_mem bps period [a, b, c] hmem
      ⟨"Invalid reporting period.", by simp [segmentsOfGroup, h1, h2]⟩
    exact ⟨msg, by rw [get_interpolation_years, hm]; rfl⟩

/-- C4 witness: the spec scenario — period `2010` with first-matching and
non-matching 3-element groups. -/
theorem three_element_break_point_cases_witness :
    segmentsOfGroup "2010" [⟨"2010", "x"⟩, ⟨"2011", "y"⟩, ⟨"2015", "z"⟩]
        = .ok [[⟨"2010", "x"⟩], [⟨"2011", "y"⟩, ⟨"2015", "z"⟩]] ∧
    ∃ msg, get_interpolation_years
        [("2010", [⟨"2009", "x"⟩, ⟨"2011", "y"⟩, ⟨"2015", "z"⟩])] = .error msg :=
  ⟨three_element_break_point_cases.1 "2010" ⟨"2010", "x"⟩ ⟨"2011", "y"⟩
      ⟨"2015", "z"⟩ (by decide),
   three_element_break_point_cases.2.2.2
      [("2010", [⟨"2009", "x"⟩, ⟨"2011", "y"⟩, ⟨"2015", "z"⟩])] "2010"
      ⟨"2009", "x"⟩ ⟨"2011", "y"⟩ ⟨"2015", "z"⟩ (by decide) (by decide) (by decide)⟩

/-- C5 counterexample: the code splits a 4-element group into `year[:2]` and
`year[1:]` — the first two elements and the last THREE elements — not into the
two claimed non-overlapping pairs (first-two, last-two). -/
theorem four_element_split_counterexample :
    segmentsOfGroup "2010"
        [⟨"2000", "a"⟩, ⟨"2005", "b"⟩, ⟨"2010", "c"⟩, ⟨"2015", "d"⟩]
      = .ok [[⟨"2000", "a"⟩, ⟨"2005", "b"⟩],
             [⟨"2005", "b"⟩, ⟨"2010", "c"⟩, ⟨"2015", "d"⟩]] ∧
    (.ok [[⟨"2000", "a"⟩, ⟨"2005", "b"⟩],
          [⟨"2005", "b"⟩, ⟨"2010", "c"⟩, ⟨"2015", "d"⟩]]
      : Except String (List (List YearSpecS)))
      ≠ .ok [[⟨"2000", "a"⟩, ⟨"2005", "b"⟩], [⟨"2010", "c"⟩, ⟨"2015", "d"⟩]] := by
  decide

/-- C5 amended: a 4-element bracket group is split into two overlapping parts:
the first two elements, and the last three elements (second through fourth). -/
theorem four_element_split (period : String) (a b c d : YearSpecS) :
    segmentsOfGroup period [a, b, c, d] = .ok [[a, b], [b, c, d]] := rfl

/-- C10: a breakpoint group whose length is not 2, 3 or 4 — empty, a
single-element exact-match group, or 5 and longer — makes the extraction fail
with "Invalid year format", a breakpoints mapping containing one makes
`get_interpolation_years` fail, and a successful run only ever saw groups of
length 2, 3 or 4. -/
theorem invalid_group_length :
    (∀ (period : String) (g : List YearSpecS),
      g.length ≠ 2 → g.length ≠ 3 → g.length ≠ 4 →
        segmentsOfGroup period g = .error "Invalid year format") ∧
    (∀ (bps : List (String × List YearSpecS)) (period : String) (g : List YearSpecS),
      (period, g) ∈ bps → g.length ≠ 2 → g.length ≠ 3 → g.length ≠ 4 →
        ∃ msg, get_interpolation_years bps = .error msg) ∧
    ∀ (bps : List (String × List YearSpecS)) (out : List (List YearSpecS)),
      get_interpolation_years bps = .ok out →
      ∀ period g, (period, g) ∈ bps →
        g.length = 2 ∨ g.length = 3 ∨ g.length = 4 := by
  have hlen : ∀ (period : String) (g : List YearSpecS),
      g.length ≠ 2 → g.length ≠ 3 → g.length ≠ 4 →
        segmentsOfGroup period g = .error "Invalid year format" := by
    intro period g h2 h3 h4
    match g with
    | [] => rfl
    | [a] => rfl
    | [a, b] => exact absurd rfl h2
    | [a, b, c] => exact absurd rfl h3
    | [a, b, c, d] => exact absurd rfl h4
    | a :: b :: c :: d :: e :: rest => rfl
  refine ⟨hlen, ?_, ?_⟩
  · intro bps period g hmem h2 h3 h4
    obtain ⟨msg, hm⟩ := collectSegments_error_of_mem bps period g hmem
      ⟨"Invalid year format", hlen period g h2 h3 h4⟩
    exact ⟨msg, by rw [get_interpolation_years, hm]; rfl⟩
  · intro bps out hok period g hmem
    rcases hc : collectSegments bps with msg | segs
    · rw [get_interpolation_years, hc] at hok
      exact absurd hok (by intro h; exact Except.noConfusion h)
    · obtain ⟨s, hs⟩ := collectSegments_ok_mem bps segs hc period g hmem
      by_contra hno
      push_neg at hno
      rw [hlen period g hno.1 hno.2.1 hno.2.2] at hs
      exact Except.noConfusion hs

/-- C10 witness: a singleton exact-match group (as the resolver produces for a
directly available year) is rejected, and so is an empty group. -/
theorem invalid_group_length_witness :
    segmentsOfGroup "2010" ([] : List YearSpecS) = .error "Invalid year format" ∧
    ∃ msg, get_interpolation_years [("2010", [⟨"2010", "a"⟩])] = .error msg :=
  ⟨invalid_group_length.1 "2010" [] (by decide) (by decide) (by decide),
   invalid_group_length.2.1 [("2010", [⟨"2010", "a"⟩])] "2010" [⟨"2010", "a"⟩]
      (by decide) (by decide) (by decide) (by decide)⟩

lemma bool_not_true {b : Bool} (h : ¬ b = true) : b = false := by
  cases b
  · rfl
  · exact absurd rfl h

lemma lexLtWith_irrefl {a : Type} (lt : a → a → Bool) (hirr : ∀ x, lt x x = false)
    (as : List a) : lexLtWith lt as as = false := by
  induction as with
  | nil => rfl
  | cons x xs ih => simp [lexLtWith, hirr, ih]

lemma lexLtWith_trans {a : Type} (lt : a → a → Bool)
    (htrans : ∀ x y z, lt x y = true → lt y z = true → lt x z = true)
    (hconn : ∀ x y, lt x y = false → lt y x = false → x = y) :
    ∀ as bs cs, lexLtWith lt as bs = true → lexLtWith lt bs cs = true →
      lexLtWith lt as cs = true := by
  intro as
  induction as with
  | nil =>
    intro bs cs h1 h2
    cases bs with
    | nil => exact absurd h1 (by simp [lexLtWith])
    | cons b bs' =>
      cases cs with
      | nil => exact absurd h2 (by simp [lexLtWith])
      | cons c cs' => rfl
  | cons x xs ih =>
    intro bs cs h1 h2
    cases bs with
    | nil => exact absurd h1 (by simp [lexLtWith])
    | cons b bs' =>
      cases cs with
      | nil => exact absurd h2 (by simp [lexLtWith])
      | cons c cs' =>
        rw [lexLtWith] at h1 h2 ⊢
        by_cases hab : lt x b = true
        · by_cases hbc : lt b c = true
          · rw [if_pos (htrans x b c hab hbc)]
          · rw [if_neg hbc] at h2
            by_cases hcb : lt c b = true
            · rw [if_pos hcb] at h2
              exact absurd h2 (by simp)
            · rw [if_neg hcb] at h2
              have hbceq : b = c := hconn b c (bool_not_true hbc) (bool_not_true hcb)
              subst hbceq
              rw [if_pos hab]
        · rw [if_neg hab] at h1
          by_cases hba : lt b x = true
          · rw [if_pos hba] at h1
            exact absurd h1 (by simp)
          · rw [if_neg hba] at h1
            have habeq : x = b := hconn x b (bool_not_true hab) (bool_not_true hba)
            subst habeq
            by_cases hac : lt x c = true
            · rw [if_pos hac]
            · rw [if_neg hac] at h2 ⊢
              by_cases hca : lt c x = true
              · rw [if_pos hca] at h2
                exact absurd h2 (by simp)
              · rw [if_neg hca] at h2 ⊢
                exact ih bs' cs' h1 h2

lemma lexLtWith_conn {a : Type} (lt : a → a → Bool)
    (hconn : ∀ x y, lt x y = false → lt y x = false → x = y) :
    ∀ as bs, lexLtWith lt as bs = false → lexLtWith lt bs as = false → as = bs := by
  intro as
  induction as with
  | nil =>
    intro bs h1 _
    cases bs with
    | nil => rfl
    | cons b bs' => exact absurd h1 (by simp [lexLtWith])
  | cons x xs ih =>
    intro bs h1 h2
    cases bs with
    | nil => exact absurd h2 (by simp [lexLtWith])
    | cons b bs' =>
      rw [lexLtWith] at h1 h2
      by_cases hab : lt x b = true
      · rw [if_pos hab] at h1
        exact absurd h1 (by simp)
      · by_cases hba : lt b x = true
        · rw [if_pos hba] at h2
          exact absurd h2 (by simp)
        · have heq : x = b := hconn x b (bool_not_true hab) (bool_not_true hba)
          subst heq
          rw [if_neg hab, if_neg hab] at h1
          rw [if_neg hab, if_neg hab] at h2
          rw [ih bs' h1 h2]

lemma charLt_irrefl (x : Char) : charLt x x = false :=
  decide_eq_false (lt_irrefl x)

lemma charLt_trans (x y z : Char) :
    charLt x y = true → charLt y z = true → charLt x z = true := by
  intro h1 h2
  exact decide_eq_true (lt_trans (of_decide_eq_true h1) (of_decide_eq_true h2))

lemma charLt_conn (x y : Char) : charLt x y = false → charLt y x = false → x = y := by
  intro h1 h2
  exact le_antisymm (le_of_not_lt (of_decide_eq_false h2))
    (le_of_not_lt (of_decide_eq_false h1))

lemma strLt_irrefl (x : String) : strLt x x = false :=
  lexLtWith_irrefl charLt charLt_irrefl x.toList

lemma strLt_trans (x y z : String) :
    strLt x y = true → strLt y z = true → strLt x z = true :=
  lexLtWith_trans charLt charLt_trans charLt_conn x.toList y.toList z.toList

lemma strLt_conn (x y : String) : strLt x y = false → strLt y x = false → x = y := by
  intro h1 h2
  exact String.ext (lexLtWith_conn charLt charLt_conn x.toList y.toList h1 h2)

lemma listLtB_irrefl (as : List String) : listLtB as as = false :=
  lexLtWith_irrefl strLt strLt_irrefl as

lemma listLtB_trans (as bs cs : List String) :
    listLtB as bs = true → listLtB bs cs = true → listLtB as cs = true :=
  lexLtWith_trans strLt strLt_trans strLt_conn as bs cs

lemma listLtB_conn (as bs : List String) :
    listLtB as bs = false → listLtB bs as = false → as = bs :=
  lexLtWith_conn strLt strLt_conn as bs

lemma notLt_trans {a : Type} (lt : a → a → Bool)
    (htrans : ∀ x y z, lt x y = true → lt y z = true → lt x z = true)
    (hconn : ∀ x y, lt x y = false → lt y x = false → x = y)
    (x y z : a) (hxy : lt y x = false) (hyz : lt z y = false) : lt z x = false := by
  rcases hzx : lt z x with _ | _
  · rfl
  · exfalso
    rcases hyzb : lt y z with _ | _
    · have heq : y = z := hconn y z hyzb hyz
      rw [← heq] at hzx
      rw [hzx] at hxy
      exact Bool.noConfusion hxy
    · have := htrans y z x hyzb hzx
      rw [this] at hxy
      exact Bool.noConfusion hxy

lemma notLt_total {a : Type} (lt : a → a → Bool)
    (htrans : ∀ x y z, lt x y = true → lt y z = true → lt x z = true)
    (hirr : ∀ x, lt x x = false)
    (x y : a) : lt y x = false ∨ lt x y = false := by
  rcases h1 : lt y x with _ | _
  · exact Or.inl rfl
  · right
    rcases h2 : lt x y with _ | _
    · rfl
    · have := htrans y x y h1 h2
      rw [hirr] at this
      exact Bool.noConfusion this

instance : IsTrans (List YearSpecS) groupLe := ⟨fun x y z hxy hyz =>
  notLt_trans listLtB listLtB_trans listLtB_conn
    (keyList x) (keyList y) (keyList z) hxy hyz⟩

instance : IsTotal (List YearSpecS) groupLe := ⟨fun x y =>
  notLt_total listLtB listLtB_trans listLtB_irrefl (keyList x) (keyList y)⟩

instance : IsTrans YearSpecS yearLe := ⟨fun x y z hxy hyz =>
  notLt_trans strLt strLt_trans strLt_conn x.year y.year z.year hxy hyz⟩

instance : IsTotal YearSpecS yearLe := ⟨fun x y =>
  notLt_total strLt strLt_trans strLt_irrefl x.year y.year⟩

lemma flatMap_congr_perm {a b : Type} (f : a → List b) {l₁ l₂ : List a}
    (h : l₁.Perm l₂) : (l₁.flatMap f).Perm (l₂.flatMap f) := by
  induction h with
  | nil => exact List.Perm.refl _
  | cons x _ ih =>
    rw [List.flatMap_cons, List.flatMap_cons]
    exact ih.append_left (f x)
  | swap x y l =>
    rw [List.flatMap_cons, List.flatMap_cons, List.flatMap_cons, List.flatMap_cons,
      ← List.append_assoc, ← List.append_assoc]
    exact (List.perm_append_comm).append_right (l.flatMap f)
  | trans _ _ ih1 ih2 => exact ih1.trans ih2

lemma get_interpolation_years_ok_shape (bps : List (String × List YearSpecS))
    (out : List (List YearSpecS)) (h : get_interpolation_years bps = .ok out) :
    ∃ segs, collectSegments bps = .ok segs ∧
      out = List.insertionSort groupLe
        ((remove_duplicated_years segs).map (List.insertionSort yearLe)) := by
  rcases hc : collectSegments bps with msg | segs
  · rw [get_interpolation_years, hc] at h
    exact absurd h (by intro hh; exact Except.noConfusion hh)
  · rw [get_interpolation_years, hc] at h
    exact ⟨segs, rfl, (Except.ok.inj h).symm⟩

/-- C6 counterexample: two breakpoint groups that deduplicate to distinct
singleton segments sharing the year tuple `["2000"]` (different assets); the
final sort keys them equally, so the stable sort preserves the arbitrary
set-iteration order and swapping the two input entries changes the output
list. -/
theorem get_interpolation_years_order_counterexample :
    ([("x2000", [⟨"1990", "p"⟩, ⟨"1995", "q"⟩, ⟨"2000", "B"⟩]),
      ("2000", [⟨"1990", "p"⟩, ⟨"1995", "q"⟩, ⟨"2000", "A"⟩])] :
        List (String × List YearSpecS)).Perm
      [("2000", [⟨"1990", "p"⟩, ⟨"1995", "q"⟩, ⟨"2000", "A"⟩]),
       ("x2000", [⟨"1990", "p"⟩, ⟨"1995", "q"⟩, ⟨"2000", "B"⟩])] ∧
    get_interpolation_years
        [("2000", [⟨"1990", "p"⟩, ⟨"1995", "q"⟩, ⟨"2000", "A"⟩]),
         ("x2000", [⟨"1990", "p"⟩, ⟨"1995", "q"⟩, ⟨"2000", "B"⟩])]
      ≠ get_interpolation_years
        [("x2000", [⟨"1990", "p"⟩, ⟨"1995", "q"⟩, ⟨"2000", "B"⟩]),
         ("2000", [⟨"1990", "p"⟩, ⟨"1995", "q"⟩, ⟨"2000", "A"⟩])] := by
  decide

/-- C6 amended: deduplication identifies groups with the same (year, asset)
members disregarding order and keeps one canonical member, and the output is
sorted ascending over the year tuples; hence permuting the input breakpoint
entries permutes the output (same groups, each internally sorted by year, both
outputs sorted) but groups sharing an identical year tuple may appear in either
order, so the output lists need not be identical. -/
theorem get_interpolation_years_perm_invariant
    (l₁ l₂ : List (String × List YearSpecS)) (out₁ out₂ : List (List YearSpecS))
    (hperm : l₁.Perm l₂)
    (h₁ : get_interpolation_years l₁ = .ok out₁)
    (h₂ : get_interpolation_years l₂ = .ok out₂) :
    out₁.Perm out₂ ∧ out₁.Pairwise groupLe ∧ ∀ g ∈ out₁, g.Pairwise yearLe := by
  obtain ⟨s₁, hc₁, ho₁⟩ := get_interpolation_years_ok_shape l₁ out₁ h₁
  obtain ⟨s₂, hc₂, ho₂⟩ := get_interpolation_years_ok_shape l₂ out₂ h₂
  have hs : s₁.Perm s₂ := by
    rw [collectSegments_ok_flatMap l₁ s₁ hc₁, collectSegments_ok_flatMap l₂ s₂ hc₂]
    exact flatMap_congr_perm segsOf hperm
  refine ⟨?_, ?_, ?_⟩
  · rw [ho₁, ho₂]
    have hmid : ((remove_duplicated_years s₁).map (List.insertionSort yearLe)).Perm
        ((remove_duplicated_years s₂).map (List.insertionSort yearLe)) := by
      unfold remove_duplicated_years
      exact ((hs.map canonGroup).dedup).map _
    exact ((List.perm_insertionSort groupLe _).trans hmid).trans
      (List.perm_insertionSort groupLe _).symm
  · rw [ho₁]
    exact List.sorted_insertionSort groupLe _
  · intro g hg
    rw [ho₁] at hg
    have hg' := (List.perm_insertionSort groupLe _).mem_iff.mp hg
    obtain ⟨g', _, rfl⟩ := List.mem_map.mp hg'
    exact List.sorted_insertionSort yearLe g'

/-- C6 witness: two entries with distinct year tuples, given in both orders,
produce outputs that are permutations of each other, sorted by year tuple, each
group sorted by year. -/
theorem get_interpolation_years_perm_invariant_witness :
    ([[(⟨"2009", "m"⟩ : YearSpecS), ⟨"2011", "n"⟩], [⟨"2014", "r"⟩, ⟨"2016", "t"⟩]]).Perm
      [[⟨"2009", "m"⟩, ⟨"2011", "n"⟩], [⟨"2014", "r"⟩, ⟨"2016", "t"⟩]] ∧
    ([[(⟨"2009", "m"⟩ : YearSpecS), ⟨"2011", "n"⟩],
      [⟨"2014", "r"⟩, ⟨"2016", "t"⟩]]).Pairwise groupLe ∧
    ∀ g ∈ [[(⟨"2009", "m"⟩ : YearSpecS), ⟨"2011", "n"⟩],
      [⟨"2014", "r"⟩, ⟨"2016", "t"⟩]], g.Pairwise yearLe :=
  get_interpolation_years_perm_invariant
    [("2010", [⟨"2009", "m"⟩, ⟨"2011", "n"⟩]),
     ("2015", [⟨"2014", "r"⟩, ⟨"2016", "t"⟩])]
    [("2015", [⟨"2014", "r"⟩, ⟨"2016", "t"⟩]),
     ("2010", [⟨"2009", "m"⟩, ⟨"2011", "n"⟩])]
    [[⟨"2009", "m"⟩, ⟨"2011", "n"⟩], [⟨"2014", "r"⟩, ⟨"2016", "t"⟩]]
    [[⟨"2009", "m"⟩, ⟨"2011", "n"⟩], [⟨"2014", "r"⟩, ⟨"2016", "t"⟩]]
    (by decide) (by decide) (by decide)

lemma pyIn_refl (s : String) : pyIn s s = true :=
  decide_eq_true (List.infix_refl s.toList)

lemma lookupMap_mem_keys {results : List (String × ResVal)} {k : String} {v : ResVal}
    (h : lookupMap results k = some v) : k ∈ results.map (·.1) := by
  unfold lookupMap at h
  rcases hf : results.find? (fun e => e.1 == k) with _ | e
  · rw [hf] at h
    exact Option.noConfusion h
  · have hp := List.find?_some hf
    have hm := List.mem_of_find?_eq_some hf
    exact List.mem_map.mpr ⟨e, hm, beq_iff_eq.mp hp⟩

lemma intLookup_mem_keys {ry : List (Int × Option (List YearSpec))} {k : Int}
    {v : Option (List YearSpec)} (h : intLookup ry k = some v) :
    k ∈ ry.map (·.1) := by
  unfold intLookup at h
  rcases hf : ry.find? (fun e => e.1 == k) with _ | e
  · rw [hf] at h
    exact Option.noConfusion h
  · have hp := List.find?_some hf
    have hm := List.mem_of_find?_eq_some hf
    exact List.mem_map.mpr ⟨e, hm, beq_iff_eq.mp hp⟩

/-- C7 counterexample: with `results = {"2015": ...}`, no breakpoints and
requested year 15 there is neither an exact single-year entry nor a bracket,
yet `parse_to_year_a` fails with a `KeyError` (the substring test
`"15" in "2015"` passes, then `results["15"]` is missing), not with the
claimed AssertionError-class "year not schedulable" condition. -/
theorem parse_to_year_a_counterexample :
    parseToYearA 1 [("2015", .single [])] [] 15 = .error "KeyError: 15" ∧
    (Except.error "KeyError: 15" : Except String (List SubARow))
      ≠ .error "AssertionError: You're not suppose to be asking for this year" := by
  decide

/-- C7 amended: the dispatcher keys its first branch on Python substring
containment, not exact matching.  If `str(year)` is itself a stored
underscore-free label with a single-year result, it is parsed and returned
directly; if no underscore-free label contains `str(year)` as a substring,
then a breakpoints entry for the year holding at least two specs delegates to
`interpolate_sub_a_data` on the first two, and a year absent from the
breakpoints keys fails with the AssertionError message. -/
theorem parse_to_year_a_dispatch (fuel : Nat) (results : List (String × ResVal))
    (ry : List (Int × Option (List YearSpec))) (year : Int) :
    ((splitOnChar '_' (toString year).toList).length = 1 →
      ∀ groups, lookupMap results (toString year) = some (.single groups) →
        parseToYearA (fuel + 1) results ry year = .ok (parse_result_single groups)) ∧
    ((∀ lab ∈ results.map (·.1),
        (splitOnChar '_' lab.toList).length = 1 → pyIn (toString year) lab = false) →
      (∀ s1 s2 rest, intLookup ry year = some (some (s1 :: s2 :: rest)) →
        parseToYearA (fuel + 1) results ry year
          = interpolate_sub_a_data fuel results ry s1.year s2.year year) ∧
      ((ry.map (·.1)).contains year = false →
        parseToYearA (fuel + 1) results ry year
          = .error "AssertionError: You're not suppose to be asking for this year")) := by
  refine ⟨?_, ?_⟩
  · intro hus groups hlk
    have hmemk : toString year ∈ results.map (·.1) := lookupMap_mem_keys hlk
    have hany : ((results.map (·.1)).filter
        (fun y => (splitOnChar '_' y.toList).length == 1)).any
          (fun yr => pyIn (toString year) yr) = true :=
      List.any_eq_true.mpr ⟨toString year,
        List.mem_filter.mpr ⟨hmemk, by simpa using hus⟩, pyIn_refl _⟩
    rw [parseToYearA]
    simp only [hany, if_true, hlk]
  · intro hnosub
    have hany : ((results.map (·.1)).filter
        (fun y => (splitOnChar '_' y.toList).length == 1)).any
          (fun yr => pyIn (toString year) yr) = false := by
      rw [← Bool.not_eq_true]
      intro h
      obtain ⟨lab, hmem, hpy⟩ := List.any_eq_true.mp h
      have hm := List.mem_filter.mp hmem
      have hfalse := hnosub lab hm.1 (by simpa using hm.2)
      rw [hfalse] at hpy
      exact Bool.noConfusion hpy
    constructor
    · intro s1 s2 rest hlk
      have hcont : (ry.map (·.1)).contains year = true := by
        rw [List.contains_eq_any_beq, List.any_eq_true]
        exact ⟨year, intLookup_mem_keys hlk, beq_iff_eq.mpr rfl⟩
      rw [parseToYearA]
      simp only [hany, Bool.false_eq_true, if_false, hcont, if_true, hlk]
      rfl
    · intro hncont
      rw [parseToYearA]
      simp only [hany, Bool.false_eq_true, if_false, hncont]

/-- C7 witness: an exact entry for 2015 is parsed directly; year 1999 with no
results and no breakpoints hits the assertion message. -/
theorem parse_to_year_a_dispatch_witness :
    parseToYearA 1 [("2015", .single [⟨1, [⟨1, 7⟩]⟩])] [] 2015
        = .ok (parse_result_single [⟨1, [⟨1, 7⟩]⟩]) ∧
    parseToYearA 1 [] [] 1999
        = .error "AssertionError: You're not suppose to be asking for this year" :=
  ⟨(parse_to_year_a_dispatch 0 [("2015", .single [⟨1, [⟨1, 7⟩]⟩])] [] 2015).1
      (by decide) [⟨1, [⟨1, 7⟩]⟩] (by decide),
   ((parse_to_year_a_dispatch 0 [] [] 1999).2 (by decide)).2 (by decide)⟩

lemma get_b_years_fold (sub_b_years : List (String × BEntry))
    (base report : YearSpec)
    (hbl : bLookup sub_b_years "baseline" = some (.baseline base report)) :
    ∀ (l : List (String × BEntry)) (acc : List (YearSpec × YearSpec × BEntry)),
      get_b_years_go sub_b_years l acc
        = some (acc ++
            (l.filter (fun e => !(e.1 == "baseline"))).map
              (fun e => (base, report, e.2))) := by
  intro l
  induction l with
  | nil => intro acc; simp [get_b_years_go]
  | cons e rest ih =>
    intro acc
    rcases hb : (e.1 == "baseline") with _ | _
    · simp only [get_b_years_go, hb, Bool.false_eq_true, if_false, hbl]
      rw [ih (acc ++ [(base, report, e.2)])]
      simp [List.filter_cons, hb]
    · simp only [get_b_years_go, hb, if_true]
      rw [ih acc]
      simp [List.filter_cons, hb]

/-- C8: whenever the `"baseline"` entry holds a base/report pair, `get_b_years`
returns exactly one `(base, report, value)` triple per non-baseline entry, in
iteration order, with no deduplication. -/
theorem get_b_years_correct (sub_b_years : List (String × BEntry))
    (base report : YearSpec)
    (hbl : bLookup sub_b_years "baseline" = some (.baseline base report)) :
    get_b_years sub_b_years
      = some ((sub_b_years.filter (fun e => !(e.1 == "baseline"))).map
          (fun e => (base, report, e.2))) := by
  unfold get_b_years
  rw [get_b_years_fold sub_b_years base report hbl sub_b_years []]
  simp

/-- C8 witness: the spec scenario — baseline (2000, 2015) plus extras 2018 and
2019 yields exactly the two triples (2000, 2015, 2018) and (2000, 2015, 2019). -/
theorem get_b_years_correct_witness :
    get_b_years
        [("baseline", .baseline ⟨2000, "a2000"⟩ ⟨2015, "a2015"⟩),
         ("2", .extra ⟨2018, "a2018"⟩), ("3", .extra ⟨2019, "a2019"⟩)]
      = some [(⟨2000, "a2000"⟩, ⟨2015, "a2015"⟩, .extra ⟨2018, "a2018"⟩),
              (⟨2000, "a2000"⟩, ⟨2015, "a2015"⟩, .extra ⟨2019, "a2019"⟩)] := by
  rw [get_b_years_correct
    [("baseline", .baseline ⟨2000, "a2000"⟩ ⟨2015, "a2015"⟩),
     ("2", .extra ⟨2018, "a2018"⟩), ("3", .extra ⟨2019, "a2019"⟩)]
    ⟨2000, "a2000"⟩ ⟨2015, "a2015"⟩ (by decide)]
  decide
